import Mathlib

/-!
Shallow embedding of `src/token.rs` of snip721-reference-impl: the token /
collateral / metadata data model, the seeded colour-attribute builder
(`Colour::new`, `Trait::new_dice_colour`, `Extension::default`,
`Extension::with_colours`), the serde-derived wire encoding of the model
types, and the collateralisation gate described by the repository's
documentation.

Machine bytes are `Nat` with `% 256` where the source produces `u8` values;
fallible or panicking code returns `Option`.
-/

namespace Snip721

/-- External collaborator (`cosmwasm_std::CanonicalAddr`): a canonical
account address, modelled as its raw bytes. -/
abbrev CanonicalAddr := List Nat

/-- External collaborator (`cosmwasm_std::Coin`): an amount with a
denomination. -/
structure Coin where
  denom : String
  amount : Nat
deriving DecidableEq, Repr

/-- Modelled from the spec: `crate::expiration::Expiration` (src/expiration.rs
is not under src/). Per the spec an expiration is one of never-expires /
expires-at-time / expires-at-height. -/
inductive Expiration where
  | never
  | at_height (h : Nat)
  | at_time (t : Nat)
deriving DecidableEq, Repr

/-- Modelled from the spec: `crate::state::Permission` (src/state.rs is not
under src/). Per the spec a permission grant carries the grantee address,
one or more granted action categories, and an optional expiration after
which the grant is inert. -/
structure Permission where
  address : CanonicalAddr
  categories : List String
  expiration : Option Expiration
deriving DecidableEq, Repr

/-- The struct `Token` of src/token.rs. -/
structure Token where
  owner : CanonicalAddr
  permissions : List Permission
  unwrapped : Bool
  collateralised : Bool
deriving DecidableEq, Repr

/-- The struct `CollateralInfo` of src/token.rs. -/
structure CollateralInfo where
  price : Coin
  repayment : Coin
  expiration : Expiration
  holder : Option CanonicalAddr
deriving DecidableEq, Repr

/-- The struct `Trait` of src/token.rs. -/
structure Trait where
  display_type : Option String
  trait_type : Option String
  value : String
  max_value : Option String
deriving DecidableEq, Repr

/-- The struct `Authentication` of src/token.rs. -/
structure Authentication where
  key : Option String
  user : Option String
deriving DecidableEq, Repr

/-- The struct `MediaFile` of src/token.rs. -/
structure MediaFile where
  file_type : Option String
  extension : Option String
  authentication : Option Authentication
  url : String
deriving DecidableEq, Repr

/-- The struct `Extension` of src/token.rs. -/
structure Extension where
  image : Option String
  image_data : Option String
  external_url : Option String
  description : Option String
  xp : Nat
  name : Option String
  attributes : List Trait
  background_color : Option String
  animation_url : Option String
  youtube_url : Option String
  media : Option (List MediaFile)
  protected_attributes : Option (List String)
deriving DecidableEq, Repr

/-- The struct `Metadata` of src/token.rs. -/
structure Metadata where
  token_uri : Option String
  extension : Option Extension
deriving DecidableEq, Repr

/-- The tuple struct `Colour` of src/token.rs: it wraps an arbitrary-length
byte vector. -/
structure Colour where
  val : List Nat
deriving DecidableEq, Repr

/-- The derived `Default` for `Metadata`: every field takes its own default,
and `Option::default()` is `None`. -/
def Metadata.default : Metadata :=
  { token_uri := none, extension := none }

/-- The derived `Default` for `Colour`: `Vec::default()` is the empty
vector. -/
def Colour.default : Colour := ⟨[]⟩

/-- Modelled from the spec: one mixing step of `crate::rand::Prng`
(src/rand.rs is not under src/). Per the spec the generator is a pure
deterministic function from its internal state to a fixed-size byte chunk;
the concrete mixing arithmetic here stands in for the hash the source uses
and produces a 32-byte chunk, each byte reduced `% 256`. -/
def hashStep (input : List Nat) : List Nat :=
  let acc := input.foldl
    (fun a b => (a * 1099511628211 + b + 1) % 18446744073709551616)
    14695981039346656037
  (List.range 32).map fun i =>
    (acc / 2 ^ (8 * (i % 8)) + 131 * i + acc % (2 * i + 3)) % 256

/-- Modelled from the spec: `crate::rand::Prng` (src/rand.rs is not under
src/). A deterministic pseudo-random byte generator seeded from a
domain-separation tag and a caller seed; drawing advances the internal
state, which the embedding threads explicitly. -/
structure Prng where
  state : List Nat
deriving DecidableEq, Repr

/-- Modelled from the spec: `Prng::new(tag, seed)` derives the initial
internal state deterministically from the domain tag and the seed. -/
def Prng.new (tag seed : List Nat) : Prng := ⟨hashStep (tag ++ seed)⟩

/-- Modelled from the spec: `Prng::rand_bytes` returns the next fixed-size
(32-byte) chunk and the advanced generator. -/
def Prng.rand_bytes (p : Prng) : List Nat × Prng :=
  let out := hashStep p.state
  (out, ⟨out⟩)

/-- External collaborator (`hex::ToHex`): one hex digit, lowercase. -/
def hexDigit (n : Nat) : Char :=
  if n < 10 then Char.ofNat (48 + n) else Char.ofNat (87 + n)

/-- External collaborator (`hex::ToHex`): a byte as two lowercase hex
digits, high nibble first (`% 16` keeps the digits in range; source bytes
are below 256, so `b / 16 % 16 = b / 16`). -/
def byteToHex (b : Nat) : List Char :=
  [hexDigit (b / 16 % 16), hexDigit (b % 16)]

/-- External collaborator (`hex::ToHex` / `encode_hex::<String>()`): every
byte rendered as two lowercase hex characters, in order, no prefix. -/
def encodeHex (bs : List Nat) : String :=
  ⟨bs.foldr (fun b acc => byteToHex b ++ acc) []⟩

/-- The constructor `Colour::new` of src/token.rs:
`Colour(p.rand_bytes()[0..3].to_vec())`. `none` models the Rust panic when
the draw holds fewer than 3 bytes. -/
def Colour.new (p : Prng) : Option (Colour × Prng) :=
  let (bytes, p2) := p.rand_bytes
  if 3 ≤ bytes.length then some (⟨bytes.take 3⟩, p2) else none

/-- The constructor `Trait::new_dice_colour` of src/token.rs: a fresh Colour
draw hex-encoded into `value`, every other field `None`. -/
def Trait.new_dice_colour (p : Prng) : Option (Trait × Prng) :=
  match Colour.new p with
  | some (c, p2) =>
      some ({ display_type := none, trait_type := none,
              value := encodeHex c.val, max_value := none }, p2)
  | none => none

/-- The explicit `Default` impl for `Extension` of src/token.rs. -/
def Extension.default : Extension :=
  { image := none
    image_data := none
    external_url := none
    description := some "A dice set for web3 gaming"
    xp := 0
    name := some "Poker Joke Dice"
    attributes := []
    background_color := none
    animation_url := none
    youtube_url := none
    media := none
    protected_attributes := none }

/-- The `for _ in 0..n` loop of `with_colours`: push `n` fresh dice-colour
traits onto `acc`, threading the generator. -/
def pushDiceTraits : Nat → List Trait → Prng → Option (List Trait × Prng)
  | 0, acc, p => some (acc, p)
  | n + 1, acc, p =>
      match Trait.new_dice_colour p with
      | some (t, p2) => pushDiceTraits n (acc ++ [t]) p2
      | none => none

/-- The builder `Extension::with_colours(seed)` of src/token.rs: one
generator seeded with tag `[12]` and the caller's seed, three trait draws,
one background draw, all other fields the fixed defaults. -/
def Extension.with_colours (seed : List Nat) : Option Extension := do
  let p := Prng.new [12] seed
  let (new_dice_traits, p2) ← pushDiceTraits 3 [] p
  let (bg, _) ← Colour.new p2
  some { image := none
         image_data := none
         external_url := none
         description := some "A dice set for web3 gaming"
         xp := 0
         name := some "Poker Joke Dice"
         attributes := new_dice_traits
         background_color := some (encodeHex bg.val)
         animation_url := none
         youtube_url := none
         media := none
         protected_attributes := none }

/-- The generator state after `i` draws of the single generator
`with_colours` instantiates for `seed` (domain tag `[12]`). -/
def prngAfter (seed : List Nat) : Nat → Prng
  | 0 => Prng.new [12] seed
  | i + 1 => ((prngAfter seed i).rand_bytes).2

/-- The `i`-th (0-based) `rand_bytes` chunk of the generator `with_colours`
instantiates for `seed`. -/
def chunk (seed : List Nat) (i : Nat) : List Nat :=
  ((prngAfter seed i).rand_bytes).1

/-- A character is one of the 16 lowercase hexadecimal digits. -/
def isLowerHex (c : Char) : Bool :=
  (48 ≤ c.toNat && c.toNat ≤ 57) || (97 ≤ c.toNat && c.toNat ≤ 102)

/-- The character list behind `encodeHex`. -/
def hexChars (bs : List Nat) : List Char :=
  bs.foldr (fun b acc => byteToHex b ++ acc) []

/-- Modelled from the spec: the error kinds of §7 (the contract error enum
is not under src/). -/
inductive ContractError where
  | token_locked
  | unauthorized
  | invalid_transition
  | not_yet_redeemable
deriving DecidableEq, Repr

/-- Modelled from the spec: the operations the surrounding execution layer
requests on a Token (§2, §4.3, §4.5); `un_collateralise` is the single
release operation the src/token.rs doc comment on `collateralised` names. -/
inductive TokenOp where
  | transfer_nft
  | send_nft
  | view_metadata
  | set_metadata
  | approve
  | revoke
  | reveal
  | un_collateralise
deriving DecidableEq, Repr

/-- Modelled from the spec: the action category an operation falls under for
the permission scan (§4.3). -/
def TokenOp.category : TokenOp → String
  | .transfer_nft => "transfer"
  | .send_nft => "transfer"
  | .view_metadata => "view_metadata"
  | .set_metadata => "set_metadata"
  | .approve => "approve_others"
  | .revoke => "approve_others"
  | .reveal => "view_metadata"
  | .un_collateralise => "release_collateral"

/-- Modelled from the spec: the Expiration Gate (§4.4), a pure predicate on
the current height and time. -/
def Expiration.is_expired (e : Expiration) (height time : Nat) : Bool :=
  match e with
  | .never => false
  | .at_height h => h ≤ height
  | .at_time t => t ≤ time

/-- Modelled from the spec (§4.3): a grant is live for a request when the
grantee matches, the granted categories include the requested one, and the
expiration, if any, has not elapsed. -/
def Permission.grants (p : Permission) (req : CanonicalAddr) (cat : String)
    (height time : Nat) : Bool :=
  p.address == req && p.categories.contains cat &&
    !(match p.expiration with
      | some e => e.is_expired height time
      | none => false)

/-- Modelled from the spec (§4.3): the owner is implicitly authorized for
every category; otherwise the permission list is scanned for a live
grant. -/
def Token.check_permission (t : Token) (req : CanonicalAddr) (cat : String)
    (height time : Nat) : Bool :=
  t.owner == req || t.permissions.any fun p => p.grants req cat height time

/-- Modelled from the spec (§4.3, §4.5, §7) and the src/token.rs doc comment
on `collateralised` ("if so then no operation can be performed apart from
UnCollateralise"): the collateralisation gate is consulted first and rejects
every non-release operation with `TokenLocked`; otherwise the permission
gate decides. -/
def Token.authorize (t : Token) (req : CanonicalAddr) (op : TokenOp)
    (height time : Nat) : Except ContractError Unit :=
  if t.collateralised && !(op == TokenOp.un_collateralise) then
    Except.error ContractError.token_locked
  else if t.check_permission req op.category height time then Except.ok ()
  else Except.error ContractError.unauthorized

/-- External collaborator (serde_json): the JSON values the serde-derived
encoders of the model types produce. -/
inductive Json where
  | null
  | bool (b : Bool)
  | num (n : Nat)
  | str (s : String)
  | arr (elems : List Json)
  | obj (fields : List (String × Json))
deriving Repr

/-- serde: an `Option` serializes as `null` / the inner encoding. -/
def encodeOpt (f : α → Json) : Option α → Json
  | none => Json.null
  | some a => f a

/-- serde: an `Option` deserializes `null` to `None`, anything else through
the inner decoder. -/
def decodeOpt (f : Json → Option α) : Json → Option (Option α)
  | Json.null => some none
  | j => (f j).map some

def asStr : Json → Option String
  | Json.str s => some s
  | _ => none

def asNum : Json → Option Nat
  | Json.num n => some n
  | _ => none

def asBool : Json → Option Bool
  | Json.bool b => some b
  | _ => none

/-- serde: a sequence deserializes elementwise, failing fast. -/
def decodeElems (f : Json → Option α) : List Json → Option (List α)
  | [] => some []
  | j :: t =>
      match f j, decodeElems f t with
      | some a, some r => some (a :: r)
      | _, _ => none

def decodeList (f : Json → Option α) : Json → Option (List α)
  | Json.arr xs => decodeElems f xs
  | _ => none

/-- serde: a struct field, looked up by name in the serialized object. -/
def getField : Json → String → Option Json
  | Json.obj fields, name => fields.lookup name
  | _, _ => none

/-- A `CanonicalAddr` on the wire: its bytes. -/
def encodeAddr (a : CanonicalAddr) : Json := Json.arr (a.map Json.num)

def decodeAddr (j : Json) : Option CanonicalAddr := decodeList asNum j

def encodeCoin (c : Coin) : Json :=
  Json.obj [("denom", Json.str c.denom), ("amount", Json.num c.amount)]

def decodeCoin (j : Json) : Option Coin := do
  let d ← (getField j "denom").bind asStr
  let a ← (getField j "amount").bind asNum
  some ⟨d, a⟩

def encodeExpiration : Expiration → Json
  | Expiration.never => Json.str "never"
  | Expiration.at_height h => Json.obj [("at_height", Json.num h)]
  | Expiration.at_time t => Json.obj [("at_time", Json.num t)]

def decodeExpiration : Json → Option Expiration
  | Json.str s => if s = "never" then some Expiration.never else none
  | Json.obj [(k, v)] =>
      if k = "at_height" then (asNum v).map Expiration.at_height
      else if k = "at_time" then (asNum v).map Expiration.at_time
      else none
  | _ => none

def encodePermission (p : Permission) : Json :=
  Json.obj [("address", encodeAddr p.address),
            ("categories", Json.arr (p.categories.map Json.str)),
            ("expiration", encodeOpt encodeExpiration p.expiration)]

def decodePermission (j : Json) : Option Permission := do
  let a ← (getField j "address").bind decodeAddr
  let c ← (getField j "categories").bind (decodeList asStr)
  let e ← (getField j "expiration").bind (decodeOpt decodeExpiration)
  some ⟨a, c, e⟩

def encodeToken (t : Token) : Json :=
  Json.obj [("owner", encodeAddr t.owner),
            ("permissions", Json.arr (t.permissions.map encodePermission)),
            ("unwrapped", Json.bool t.unwrapped),
            ("collateralised", Json.bool t.collateralised)]

def decodeToken (j : Json) : Option Token := do
  let o ← (getField j "owner").bind decodeAddr
  let p ← (getField j "permissions").bind (decodeList decodePermission)
  let u ← (getField j "unwrapped").bind asBool
  let c ← (getField j "collateralised").bind asBool
  some ⟨o, p, u, c⟩

def encodeCollateralInfo (ci : CollateralInfo) : Json :=
  Json.obj [("price", encodeCoin ci.price),
            ("repayment", encodeCoin ci.repayment),
            ("expiration", encodeExpiration ci.expiration),
            ("holder", encodeOpt encodeAddr ci.holder)]

def decodeCollateralInfo (j : Json) : Option CollateralInfo := do
  let p ← (getField j "price").bind decodeCoin
  let r ← (getField j "repayment").bind decodeCoin
  let e ← (getField j "expiration").bind decodeExpiration
  let h ← (getField j "holder").bind (decodeOpt decodeAddr)
  some ⟨p, r, e, h⟩

def encodeTrait (t : Trait) : Json :=
  Json.obj [("display_type", encodeOpt Json.str t.display_type),
            ("trait_type", encodeOpt Json.str t.trait_type),
            ("value", Json.str t.value),
            ("max_value", encodeOpt Json.str t.max_value)]

def decodeTrait (j : Json) : Option Trait := do
  let d ← (getField j "display_type").bind (decodeOpt asStr)
  let t ← (getField j "trait_type").bind (decodeOpt asStr)
  let v ← (getField j "value").bind asStr
  let m ← (getField j "max_value").bind (decodeOpt asStr)
  some ⟨d, t, v, m⟩

def encodeAuthentication (a : Authentication) : Json :=
  Json.obj [("key", encodeOpt Json.str a.key),
            ("user", encodeOpt Json.str a.user)]

def decodeAuthentication (j : Json) : Option Authentication := do
  let k ← (getField j "key").bind (decodeOpt asStr)
  let u ← (getField j "user").bind (decodeOpt asStr)
  some ⟨k, u⟩

def encodeMediaFile (m : MediaFile) : Json :=
  Json.obj [("file_type", encodeOpt Json.str m.file_type),
            ("extension", encodeOpt Json.str m.extension),
            ("authentication", encodeOpt encodeAuthentication m.authentication),
            ("url", Json.str m.url)]

def decodeMediaFile (j : Json) : Option MediaFile := do
  let f ← (getField j "file_type").bind (decodeOpt asStr)
  let e ← (getField j "extension").bind (decodeOpt asStr)
  let a ← (getField j "authentication").bind (decodeOpt decodeAuthentication)
  let u ← (getField j "url").bind asStr
  some ⟨f, e, a, u⟩

def encodeExtension (e : Extension) : Json :=
  Json.obj [("image", encodeOpt Json.str e.image),
            ("image_data", encodeOpt Json.str e.image_data),
            ("external_url", encodeOpt Json.str e.external_url),
            ("description", encodeOpt Json.str e.description),
            ("xp", Json.num e.xp),
            ("name", encodeOpt Json.str e.name),
            ("attributes", Json.arr (e.attributes.map encodeTrait)),
            ("background_color", encodeOpt Json.str e.background_color),
            ("animation_url", encodeOpt Json.str e.animation_url),
            ("youtube_url", encodeOpt Json.str e.youtube_url),
            ("media", encodeOpt (fun l => Json.arr (l.map encodeMediaFile)) e.media),
            ("protected_attributes",
              encodeOpt (fun l => Json.arr (l.map Json.str)) e.protected_attributes)]

def decodeExtension (j : Json) : Option Extension := do
  let img ← (getField j "image").bind (decodeOpt asStr)
  let imd ← (getField j "image_data").bind (decodeOpt asStr)
  let ext ← (getField j "external_url").bind (decodeOpt asStr)
  let dsc ← (getField j "description").bind (decodeOpt asStr)
  let xp ← (getField j "xp").bind asNum
  let nm ← (getField j "name").bind (decodeOpt asStr)
  let att ← (getField j "attributes").bind (decodeList decodeTrait)
  let bg ← (getField j "background_color").bind (decodeOpt asStr)
  let anim ← (getField j "animation_url").bind (decodeOpt asStr)
  let yt ← (getField j "youtube_url").bind (decodeOpt asStr)
  let med ← (getField j "media").bind (decodeOpt (decodeList decodeMediaFile))
  let pa ← (getField j "protected_attributes").bind (decodeOpt (decodeList asStr))
  some ⟨img, imd, ext, dsc, xp, nm, att, bg, anim, yt, med, pa⟩

def encodeMetadata (m : Metadata) : Json :=
  Json.obj [("token_uri", encodeOpt Json.str m.token_uri),
            ("extension", encodeOpt encodeExtension m.extension)]

def decodeMetadata (j : Json) : Option Metadata := do
  let u ← (getField j "token_uri").bind (decodeOpt asStr)
  let e ← (getField j "extension").bind (decodeOpt decodeExtension)
  some ⟨u, e⟩

/-- serde on the tuple struct `Colour(Vec<u8>)`: the bare byte array. -/
def encodeColour (c : Colour) : Json := Json.arr (c.val.map Json.num)

def decodeColour (j : Json) : Option Colour := (decodeList asNum j).map Colour.mk

theorem hashStep_length (l : List Nat) : (hashStep l).length = 32 := by
  simp [hashStep]

theorem rand_bytes_length (p : Prng) : (p.rand_bytes).1.length = 32 := by
  simp [Prng.rand_bytes, hashStep_length]

theorem Colour.new_eq (p : Prng) :
    Colour.new p = some (⟨(p.rand_bytes).1.take 3⟩, (p.rand_bytes).2) := by
  simp [Colour.new, rand_bytes_length]

theorem with_colours_eq (seed : List Nat) :
    Extension.with_colours seed = some
      { image := none
        image_data := none
        external_url := none
        description := some "A dice set for web3 gaming"
        xp := 0
        name := some "Poker Joke Dice"
        attributes :=
          [ { display_type := none, trait_type := none,
              value := encodeHex ((chunk seed 0).take 3), max_value := none },
            { display_type := none, trait_type := none,
              value := encodeHex ((chunk seed 1).take 3), max_value := none },
            { display_type := none, trait_type := none,
              value := encodeHex ((chunk seed 2).take 3), max_value := none } ]
        background_color := some (encodeHex ((chunk seed 3).take 3))
        animation_url := none
        youtube_url := none
        media := none
        protected_attributes := none } := by
  simp [Extension.with_colours, pushDiceTraits, Trait.new_dice_colour, Colour.new_eq,
        chunk, prngAfter, bind, Option.bind]

theorem hexDigit_isLowerHex (n : Nat) (h : n < 16) : isLowerHex (hexDigit n) = true := by
  interval_cases n <;> decide

theorem encodeHex_data (bs : List Nat) : (encodeHex bs).data = hexChars bs := rfl

theorem hexChars_length (bs : List Nat) : (hexChars bs).length = 2 * bs.length := by
  induction bs with
  | nil => rfl
  | cons b t ih => simp [hexChars, byteToHex] at ih ⊢; omega

theorem encodeHex_length (bs : List Nat) : (encodeHex bs).length = 2 * bs.length := by
  show (encodeHex bs).data.length = _
  rw [encodeHex_data, hexChars_length]

theorem hexChars_isLowerHex (bs : List Nat) : ∀ c ∈ hexChars bs, isLowerHex c = true := by
  induction bs with
  | nil => intro c hc; cases hc
  | cons b t ih =>
      intro c hc
      simp only [hexChars, List.foldr_cons, byteToHex, List.cons_append, List.nil_append,
        List.mem_cons] at hc
      rcases hc with rfl | rfl | hc
      · exact hexDigit_isLowerHex _ (Nat.mod_lt _ (by norm_num))
      · exact hexDigit_isLowerHex _ (Nat.mod_lt _ (by norm_num))
      · exact ih c hc

theorem chunk_length (seed : List Nat) (i : Nat) : (chunk seed i).length = 32 := by
  simp [chunk, rand_bytes_length]

theorem take3_chunk_length (seed : List Nat) (i : Nat) :
    ((chunk seed i).take 3).length = 3 := by
  simp [List.length_take, chunk_length]

theorem decodeElems_roundtrip (f : α → Json) (g : Json → Option α)
    (h : ∀ a, g (f a) = some a) (l : List α) : decodeElems g (l.map f) = some l := by
  induction l with
  | nil => rfl
  | cons a t ih => simp [decodeElems, h, ih]

theorem decodeList_roundtrip (f : α → Json) (g : Json → Option α)
    (h : ∀ a, g (f a) = some a) (l : List α) :
    decodeList g (Json.arr (l.map f)) = some l := by
  simp [decodeList, decodeElems_roundtrip f g h]

theorem decodeOpt_roundtrip (f : α → Json) (g : Json → Option α)
    (h : ∀ a, g (f a) = some a) (hn : ∀ a, f a ≠ Json.null) (o : Option α) :
    decodeOpt g (encodeOpt f o) = some o := by
  cases o with
  | none => rfl
  | some a =>
      show decodeOpt g (f a) = some (some a)
      cases hfa : f a
      case null => exact absurd hfa (hn a)
      all_goals (simp only [decodeOpt]; rw [← hfa, h a]; rfl)

theorem str_ne_null (s : String) : Json.str s ≠ Json.null := fun h => Json.noConfusion h

theorem arr_ne_null (l : List Json) : Json.arr l ≠ Json.null := fun h => Json.noConfusion h

theorem decodeOptStr_roundtrip (o : Option String) :
    decodeOpt asStr (encodeOpt Json.str o) = some o :=
  decodeOpt_roundtrip Json.str asStr (fun _ => rfl) str_ne_null o

theorem decodeAddr_roundtrip (a : CanonicalAddr) : decodeAddr (encodeAddr a) = some a :=
  decodeList_roundtrip Json.num asNum (fun _ => rfl) a

theorem encodeAddr_ne_null (a : CanonicalAddr) : encodeAddr a ≠ Json.null :=
  fun h => Json.noConfusion h

theorem decodeCoin_roundtrip (c : Coin) : decodeCoin (encodeCoin c) = some c := by
  cases c with
  | mk d a => simp [decodeCoin, encodeCoin, getField, List.lookup, asStr, asNum]

theorem decodeExpiration_roundtrip (e : Expiration) :
    decodeExpiration (encodeExpiration e) = some e := by
  cases e <;> simp [decodeExpiration, encodeExpiration, asNum]

theorem encodeExpiration_ne_null (e : Expiration) : encodeExpiration e ≠ Json.null := by
  cases e <;> exact fun h => Json.noConfusion h

theorem decodeOptExpiration_roundtrip (o : Option Expiration) :
    decodeOpt decodeExpiration (encodeOpt encodeExpiration o) = some o :=
  decodeOpt_roundtrip _ _ decodeExpiration_roundtrip encodeExpiration_ne_null o

theorem decodePermission_roundtrip (p : Permission) :
    decodePermission (encodePermission p) = some p := by
  cases p with
  | mk a c e =>
      simp [decodePermission, encodePermission, getField, List.lookup,
        decodeAddr_roundtrip, decodeList_roundtrip Json.str asStr (fun _ => rfl),
        decodeOptExpiration_roundtrip]

theorem decodeToken_roundtrip (t : Token) : decodeToken (encodeToken t) = some t := by
  cases t with
  | mk o p u c =>
      simp [decodeToken, encodeToken, getField, List.lookup, asBool,
        decodeAddr_roundtrip,
        decodeList_roundtrip encodePermission decodePermission decodePermission_roundtrip]

theorem decodeOptAddr_roundtrip (o : Option CanonicalAddr) :
    decodeOpt decodeAddr (encodeOpt encodeAddr o) = some o :=
  decodeOpt_roundtrip _ _ decodeAddr_roundtrip encodeAddr_ne_null o

theorem decodeCollateralInfo_roundtrip (ci : CollateralInfo) :
    decodeCollateralInfo (encodeCollateralInfo ci) = some ci := by
  cases ci with
  | mk p r e h =>
      simp [decodeCollateralInfo, encodeCollateralInfo, getField, List.lookup,
        decodeCoin_roundtrip, decodeExpiration_roundtrip, decodeOptAddr_roundtrip]

theorem decodeTrait_roundtrip (t : Trait) : decodeTrait (encodeTrait t) = some t := by
  cases t with
  | mk d ty v m =>
      simp [decodeTrait, encodeTrait, getField, List.lookup, asStr,
        decodeOptStr_roundtrip]

theorem decodeAuthentication_roundtrip (a : Authentication) :
    decodeAuthentication (encodeAuthentication a) = some a := by
  cases a with
  | mk k u =>
      simp [decodeAuthentication, encodeAuthentication, getField, List.lookup,
        decodeOptStr_roundtrip]

theorem encodeAuthentication_ne_null (a : Authentication) :
    encodeAuthentication a ≠ Json.null := fun h => Json.noConfusion h

theorem decodeMediaFile_roundtrip (m : MediaFile) :
    decodeMediaFile (encodeMediaFile m) = some m := by
  cases m with
  | mk f e a u =>
      simp [decodeMediaFile, encodeMediaFile, getField, List.lookup, asStr,
        decodeOptStr_roundtrip,
        decodeOpt_roundtrip encodeAuthentication decodeAuthentication
          decodeAuthentication_roundtrip encodeAuthentication_ne_null]

theorem decodeExtension_roundtrip (e : Extension) :
    decodeExtension (encodeExtension e) = some e := by
  cases e with
  | mk img imd ext dsc xp nm att bg anim yt med pa =>
      simp [decodeExtension, encodeExtension, getField, List.lookup, asStr, asNum,
        decodeOptStr_roundtrip,
        decodeList_roundtrip encodeTrait decodeTrait decodeTrait_roundtrip,
        decodeOpt_roundtrip (fun l => Json.arr (l.map encodeMediaFile))
          (decodeList decodeMediaFile)
          (decodeList_roundtrip encodeMediaFile decodeMediaFile decodeMediaFile_roundtrip)
          (fun l => arr_ne_null (l.map encodeMediaFile)),
        decodeOpt_roundtrip (fun l => Json.arr (l.map Json.str))
          (decodeList asStr)
          (decodeList_roundtrip Json.str asStr (fun _ => rfl))
          (fun l => arr_ne_null (l.map Json.str))]

theorem encodeExtension_ne_null (e : Extension) : encodeExtension e ≠ Json.null :=
  fun h => Json.noConfusion h

theorem decodeMetadata_roundtrip (m : Metadata) :
    decodeMetadata (encodeMetadata m) = some m := by
  cases m with
  | mk u e =>
      simp [decodeMetadata, encodeMetadata, getField, List.lookup,
        decodeOptStr_roundtrip,
        decodeOpt_roundtrip encodeExtension decodeExtension
          decodeExtension_roundtrip encodeExtension_ne_null]

/-- C1: for every seed, two calls of `Extension::with_colours` with the same
seed return byte-identical Extension values: identical attribute Trait
values, identical background_color, and identical values in every other
field. -/
theorem with_colours_deterministic (s₁ s₂ : List Nat) (h : s₁ = s₂) :
    Extension.with_colours s₁ = Extension.with_colours s₂ ∧
    (Extension.with_colours s₁).map Extension.attributes
      = (Extension.with_colours s₂).map Extension.attributes ∧
    (Extension.with_colours s₁).map Extension.background_color
      = (Extension.with_colours s₂).map Extension.background_color := by
  subst h
  exact ⟨rfl, rfl, rfl⟩

theorem with_colours_deterministic_witness :
    ([12, 34] : List Nat) = [12, 34] ∧
    Extension.with_colours [12, 34] = Extension.with_colours [12, 34] :=
  ⟨rfl, (with_colours_deterministic [12, 34] [12, 34] rfl).1⟩

/-- C2: while `collateralised = true` every operation except the single
release operation `UnCollateralise` is rejected with `TokenLocked`, for
every requester including the owner; the release operation alone is never
rejected with `TokenLocked`. -/
theorem collateralised_lock_supremacy (t : Token) (req : CanonicalAddr)
    (op : TokenOp) (height time : Nat) (hc : t.collateralised = true) :
    (op ≠ TokenOp.un_collateralise →
      t.authorize req op height time = Except.error ContractError.token_locked) ∧
    t.authorize req TokenOp.un_collateralise height time ≠
      Except.error ContractError.token_locked := by
  constructor
  · intro hop
    have hb : (op == TokenOp.un_collateralise) = false := beq_eq_false_iff_ne.mpr hop
    simp [Token.authorize, hc, hb]
  · have hb : (TokenOp.un_collateralise == TokenOp.un_collateralise) = true :=
      beq_self_eq_true TokenOp.un_collateralise
    simp only [Token.authorize, hc, hb, Bool.not_true, Bool.and_false,
      Bool.false_eq_true, if_false]
    split <;> simp

theorem collateralised_lock_supremacy_witness :
    (⟨[1], [], true, true⟩ : Token).collateralised = true ∧
    Token.authorize ⟨[1], [], true, true⟩ [1] TokenOp.transfer_nft 0 0 =
      Except.error ContractError.token_locked :=
  ⟨rfl, (collateralised_lock_supremacy ⟨[1], [], true, true⟩ [1]
      TokenOp.transfer_nft 0 0 rfl).1 (by decide)⟩

/-- C3: for every seed, `with_colours` returns an Extension with exactly 3
attribute Trait entries and a populated background_color. -/
theorem with_colours_cardinality (seed : List Nat) (ext : Extension)
    (h : Extension.with_colours seed = some ext) :
    ext.attributes.length = 3 ∧ ext.background_color.isSome = true := by
  rw [with_colours_eq] at h
  simp only [Option.some.injEq] at h
  subst h
  exact ⟨rfl, rfl⟩

theorem with_colours_cardinality_witness :
    ∃ ext, Extension.with_colours [] = some ext ∧
      ext.attributes.length = 3 ∧ ext.background_color.isSome = true :=
  ⟨_, with_colours_eq [], with_colours_cardinality [] _ (with_colours_eq [])⟩

/-- C4: each Colour draw takes exactly the first 3 bytes of one `rand_bytes`
chunk with no transformation; `with_colours` instantiates one generator with
the fixed domain tag `[12]` and the caller's seed, and its four Colours (the
three trait colours then the background) are its successive draws in
order. -/
theorem with_colours_draw_structure (seed : List Nat) (ext : Extension)
    (h : Extension.with_colours seed = some ext) :
    (∀ p : Prng, Colour.new p = some (⟨(p.rand_bytes).1.take 3⟩, (p.rand_bytes).2)) ∧
    chunk seed 0 = ((Prng.new [12] seed).rand_bytes).1 ∧
    (∀ i, chunk seed (i + 1) = (((prngAfter seed i).rand_bytes).2.rand_bytes).1) ∧
    ext.attributes.map Trait.value =
      [encodeHex ((chunk seed 0).take 3), encodeHex ((chunk seed 1).take 3),
       encodeHex ((chunk seed 2).take 3)] ∧
    ext.background_color = some (encodeHex ((chunk seed 3).take 3)) := by
  rw [with_colours_eq] at h
  simp only [Option.some.injEq] at h
  subst h
  exact ⟨Colour.new_eq, rfl, fun i => rfl, rfl, rfl⟩

theorem with_colours_draw_structure_witness :
    ∃ ext, Extension.with_colours [7] = some ext ∧
      ext.background_color = some (encodeHex ((chunk [7] 3).take 3)) :=
  ⟨_, with_colours_eq [7],
    (with_colours_draw_structure [7] _ (with_colours_eq [7])).2.2.2.2⟩

/-- C5: `with_colours` and the Colour draws it performs cannot fail for any
seed, including the empty one: the `[0..3]` slice in `Colour::new` is always
in bounds. -/
theorem with_colours_never_fails :
    (∀ p : Prng, (Colour.new p).isSome = true) ∧
    (∀ seed : List Nat, (Extension.with_colours seed).isSome = true) := by
  constructor
  · intro p
    rw [Colour.new_eq]
    rfl
  · intro seed
    rw [with_colours_eq]
    rfl

/-- C6: every Trait of `with_colours` has `value` the lowercase-hex encoding
of a 3-byte Colour — exactly 6 lowercase hex characters, no prefix — with
`display_type`, `trait_type`, `max_value` all `None`; the background color
is likewise 6 lowercase hex characters with no leading marker. -/
theorem with_colours_trait_encoding (seed : List Nat) (ext : Extension)
    (h : Extension.with_colours seed = some ext) :
    (∀ tr ∈ ext.attributes,
        tr.display_type = none ∧ tr.trait_type = none ∧ tr.max_value = none ∧
        (∃ bytes : List Nat, bytes.length = 3 ∧ tr.value = encodeHex bytes) ∧
        tr.value.length = 6 ∧ ∀ c ∈ tr.value.data, isLowerHex c = true) ∧
    (∃ bg, ext.background_color = some bg ∧
        (∃ bytes : List Nat, bytes.length = 3 ∧ bg = encodeHex bytes) ∧
        bg.length = 6 ∧ ∀ c ∈ bg.data, isLowerHex c = true) := by
  rw [with_colours_eq] at h
  simp only [Option.some.injEq] at h
  subst h
  constructor
  · intro tr htr
    simp only [List.mem_cons, List.not_mem_nil, or_false] at htr
    rcases htr with rfl | rfl | rfl <;>
      exact ⟨rfl, rfl, rfl, ⟨_, take3_chunk_length seed _, rfl⟩,
        by rw [encodeHex_length, take3_chunk_length],
        fun c hc => hexChars_isLowerHex _ c hc⟩
  · exact ⟨_, rfl, ⟨_, take3_chunk_length seed 3, rfl⟩,
      by rw [encodeHex_length, take3_chunk_length],
      fun c hc => hexChars_isLowerHex _ c hc⟩

theorem with_colours_trait_encoding_witness :
    ∃ ext, Extension.with_colours [] = some ext ∧
      ∀ tr ∈ ext.attributes, tr.value.length = 6 :=
  ⟨_, with_colours_eq [], fun tr htr =>
    ((with_colours_trait_encoding [] _ (with_colours_eq [])).1 tr htr).2.2.2.2.1⟩

/-- C7: every field of `with_colours(seed)` other than `attributes` and
`background_color` equals the corresponding field of `Extension::default()`:
the fixed description and name, xp = 0, everything else `None`; and
`Extension::default()` itself has an empty attributes list and no
background color. -/
theorem with_colours_default_fields (seed : List Nat) (ext : Extension)
    (h : Extension.with_colours seed = some ext) :
    ext.description = some "A dice set for web3 gaming" ∧
    ext.name = some "Poker Joke Dice" ∧
    ext.xp = 0 ∧
    ext.image = none ∧ ext.image_data = none ∧ ext.external_url = none ∧
    ext.animation_url = none ∧ ext.youtube_url = none ∧ ext.media = none ∧
    ext.protected_attributes = none ∧
    ext.description = Extension.default.description ∧
    ext.name = Extension.default.name ∧
    ext.xp = Extension.default.xp ∧
    ext.image = Extension.default.image ∧
    ext.image_data = Extension.default.image_data ∧
    ext.external_url = Extension.default.external_url ∧
    ext.animation_url = Extension.default.animation_url ∧
    ext.youtube_url = Extension.default.youtube_url ∧
    ext.media = Extension.default.media ∧
    ext.protected_attributes = Extension.default.protected_attributes ∧
    Extension.default.attributes = [] ∧
    Extension.default.background_color = none := by
  rw [with_colours_eq] at h
  simp only [Option.some.injEq] at h
  subst h
  and_intros <;> rfl

theorem with_colours_default_fields_witness :
    ∃ ext, Extension.with_colours [1, 2, 3] = some ext ∧
      ext.description = some "A dice set for web3 gaming" ∧
      ext.name = some "Poker Joke Dice" ∧ ext.xp = 0 :=
  ⟨_, with_colours_eq [1, 2, 3],
    (with_colours_default_fields [1, 2, 3] _ (with_colours_eq [1, 2, 3])).1,
    (with_colours_default_fields [1, 2, 3] _ (with_colours_eq [1, 2, 3])).2.1,
    (with_colours_default_fields [1, 2, 3] _ (with_colours_eq [1, 2, 3])).2.2.1⟩

/-- C8: serializing then deserializing any Token, CollateralInfo or Metadata
value reproduces a value equal to the original in every field, including the
Some-versus-None distinction of every optional field. -/
theorem serde_roundtrip :
    (∀ t : Token, decodeToken (encodeToken t) = some t) ∧
    (∀ ci : CollateralInfo, decodeCollateralInfo (encodeCollateralInfo ci) = some ci) ∧
    (∀ m : Metadata, decodeMetadata (encodeMetadata m) = some m) :=
  ⟨decodeToken_roundtrip, decodeCollateralInfo_roundtrip, decodeMetadata_roundtrip⟩

/-- C9: the default Metadata value has both `token_uri` and `extension`
absent — the "exactly one populated" convention does not hold for it — and
nothing in the code rules out a Metadata with both populated. -/
theorem metadata_default_both_none :
    Metadata.default.token_uri = none ∧ Metadata.default.extension = none ∧
    ∃ m : Metadata, m.token_uri.isSome = true ∧ m.extension.isSome = true :=
  ⟨rfl, rfl, ⟨⟨some "ipfs://dice", some Extension.default⟩, rfl, rfl⟩⟩

/-- C10: every Colour built by `Colour::new` holds exactly 3 bytes, even
though the Colour type wraps an arbitrary-length byte vector (its default
is the empty vector and deserialization accepts any length). -/
theorem colour_new_three_bytes (p : Prng) (c : Colour) (p2 : Prng)
    (h : Colour.new p = some (c, p2)) :
    c.val.length = 3 ∧ Colour.default.val = [] ∧
    (∃ c4 : Colour, decodeColour (encodeColour c4) = some c4 ∧ c4.val.length = 4) := by
  rw [Colour.new_eq] at h
  simp only [Option.some.injEq, Prod.mk.injEq] at h
  obtain ⟨hc, -⟩ := h
  subst hc
  exact ⟨by simp [List.length_take, rand_bytes_length], rfl, ⟨⟨[0, 1, 2, 3]⟩, rfl, rfl⟩⟩

theorem colour_new_three_bytes_witness :
    ∃ c p2, Colour.new (Prng.new [12] []) = some (c, p2) ∧ c.val.length = 3 :=
  ⟨_, _, Colour.new_eq (Prng.new [12] []),
    (colour_new_three_bytes _ _ _ (Colour.new_eq (Prng.new [12] []))).1⟩

end Snip721
